import Mathlib

/-!
Shallow embedding of the clubnet relational schema (backend/api/models.py).

Each Django model becomes a row structure; the database state `DB` holds one
list of rows per table plus a primary-key counter `nextId` (the framework's
auto-incrementing primary key: assigned at insertion, never reused).
Foreign keys are `Nat` ids; `DateTimeField` values are `Nat` clock readings
supplied by the caller of the operation (auto_now_add fields are filled in by
the operation at creation, nullable `closed` fields start as `none`).

Deletion follows the declared `on_delete` rules: CASCADE references are
collected transitively (the self-referencing `Conversation.parent` cascade is
computed by a single forward pass, which reaches the full transitive closure
whenever every conversation's parent occurs strictly earlier in the table, as
is the case in every reachable state), and the PROTECT rule on
`Project.leader` makes user deletion fail — returning `none`, with no state
change — while some project still references the user.

`applyOp` is the framework-level CRUD interface: each operation either
returns the updated database or fails with `none` leaving the state
unchanged (missing referenced rows, violated one-to-one uniqueness, a value
outside the declared choices, a protected deletion).  `rawInsert*` functions
model insertion attempts in which individual non-nullable fields may be
omitted (`Option` arguments); a missing required field makes the insertion
fail.
-/

namespace Clubnet

/-- ClubMembershipRequest.STATUS_CHOICES: Pending, Accepted, Rejected,
Cancelled. -/
def STATUS_CHOICES : List String := ["PD", "AC", "RE", "CN"]

/-- ClubRole.PRIVILEGE_CHOICES: Representative, Member. -/
def PRIVILEGE_CHOICES : List String := ["REP", "MEM"]

/-- User row (the schema adds no fields to the framework's abstract user). -/
structure User where
  id : Nat
deriving DecidableEq

/-- Club: name, description. -/
structure Club where
  id : Nat
  name : String
  description : String
deriving DecidableEq

/-- ClubMembershipRequest: user and club FKs (CASCADE), auto-set `initiated`,
status defaulting to "PD", nullable `closed` defaulting to null. -/
structure ClubMembershipRequest where
  id : Nat
  user : Nat
  club : Nat
  initiated : Nat
  status : String
  closed : Option Nat
deriving DecidableEq

/-- ClubRole: club FK (CASCADE), privilege defaulting to "MEM". -/
structure ClubRole where
  id : Nat
  name : String
  description : String
  club : Nat
  privilege : String
deriving DecidableEq

/-- ClubMembership: user and club_role FKs (CASCADE), auto-set `joined`. -/
structure ClubMembership where
  id : Nat
  user : Nat
  club_role : Nat
  joined : Nat
deriving DecidableEq

/-- Project: auto-set `started`, nullable `closed`, leader FK (PROTECT). -/
structure Project where
  id : Nat
  name : String
  description : String
  started : Nat
  closed : Option Nat
  leader : Nat
deriving DecidableEq

/-- ClubProject join row: club and project FKs (CASCADE). -/
structure ClubProject where
  id : Nat
  club : Nat
  project : Nat
deriving DecidableEq

/-- ProjectMembership join row: user and project FKs (CASCADE). -/
structure ProjectMembership where
  id : Nat
  user : Nat
  project : Nat
  joined : Nat
deriving DecidableEq

/-- Channel: one-to-one club FK (CASCADE, unique). -/
structure Channel where
  id : Nat
  name : String
  description : String
  club : Nat
deriving DecidableEq

/-- ChannelSubscription: user and channel FKs (CASCADE), auto-set `joined`. -/
structure ChannelSubscription where
  id : Nat
  user : Nat
  channel : Nat
  joined : Nat
deriving DecidableEq

/-- Post: non-blank content, auto-set `created`, channel FK (CASCADE). -/
structure Post where
  id : Nat
  content : String
  created : Nat
  channel : Nat
deriving DecidableEq

/-- Conversation: channel and author FKs (CASCADE), nullable self-referencing
parent FK (CASCADE). -/
structure Conversation where
  id : Nat
  content : String
  created : Nat
  channel : Nat
  author : Nat
  parent : Option Nat
deriving DecidableEq

/-- Feedback: club and author FKs (CASCADE). -/
structure Feedback where
  id : Nat
  content : String
  created : Nat
  club : Nat
  author : Nat
deriving DecidableEq

/-- FeedbackReply: one-to-one parent Feedback FK (CASCADE, unique). -/
structure FeedbackReply where
  id : Nat
  content : String
  created : Nat
  parent : Nat
deriving DecidableEq

/-- The database state: one table per model plus the primary-key counter. -/
structure DB where
  users : List User
  clubs : List Club
  requests : List ClubMembershipRequest
  roles : List ClubRole
  memberships : List ClubMembership
  projects : List Project
  clubProjects : List ClubProject
  projectMemberships : List ProjectMembership
  channels : List Channel
  subscriptions : List ChannelSubscription
  posts : List Post
  conversations : List Conversation
  feedbacks : List Feedback
  replies : List FeedbackReply
  nextId : Nat
deriving DecidableEq

/-- The empty database. -/
def emptyDB : DB :=
  { users := [], clubs := [], requests := [], roles := [], memberships := []
    projects := [], clubProjects := [], projectMemberships := []
    channels := [], subscriptions := [], posts := [], conversations := []
    feedbacks := [], replies := [], nextId := 0 }

/-- Boolean membership test, used for id-set lookups in cascade collection. -/
def bmem {α : Type} [BEq α] (x : α) (l : List α) : Bool :=
  l.any (fun y => y == x)

/-- Forward pass collecting the ids of conversations to delete: a
conversation is collected when it satisfies `direct` (a directly cascading
reference) or its parent was already collected.  On a table in which every
parent occurs strictly earlier, one pass reaches the transitive closure of
the parent cascade. -/
def markDeleted (direct : Conversation → Bool) :
    List Conversation → List Nat → List Nat
  | [], acc => acc
  | c :: rest, acc =>
    if direct c || (match c.parent with
                    | some p => bmem p acc
                    | none => false) then
      markDeleted direct rest (c.id :: acc)
    else
      markDeleted direct rest acc

/-- Every conversation's parent, when present, occurs strictly earlier in
the table (true of every reachable state, since a parent must exist when its
child is inserted and is never updated). -/
def parentsEarlier : List Conversation → Bool
  | [] => true
  | c :: rest =>
    (c :: rest).all (fun d => c.parent != some d.id) && parentsEarlier rest

/-- Deleting a Conversation: CASCADE on the self-referencing parent FK
deletes the conversation and, transitively, its descendants. -/
def deleteConversation (db : DB) (cid : Nat) : DB :=
  { db with
    conversations := db.conversations.filter (fun c =>
      !(bmem c.id (markDeleted (fun c => c.id == cid) db.conversations []))) }

/-- Deleting a Club: CASCADE deletes its membership requests, roles (and
their memberships), club-project join rows, channel (and the channel's
subscriptions, posts and conversations, the conversations transitively
through the parent cascade), and feedback (and the feedback's replies).
Users and projects themselves are untouched. -/
def clubChannelIds (db : DB) (cid : Nat) : List Nat :=
  (db.channels.filter (fun ch => ch.club == cid)).map (·.id)

def deleteClub (db : DB) (cid : Nat) : DB :=
  { db with
    clubs := db.clubs.filter (fun c => c.id != cid)
    requests := db.requests.filter (fun q => q.club != cid)
    roles := db.roles.filter (fun r => r.club != cid)
    memberships := db.memberships.filter (fun m =>
      !(bmem m.club_role ((db.roles.filter (fun r => r.club == cid)).map (·.id))))
    clubProjects := db.clubProjects.filter (fun cp => cp.club != cid)
    channels := db.channels.filter (fun ch => ch.club != cid)
    subscriptions := db.subscriptions.filter (fun s =>
      !(bmem s.channel (clubChannelIds db cid)))
    posts := db.posts.filter (fun p => !(bmem p.channel (clubChannelIds db cid)))
    conversations := db.conversations.filter (fun c =>
      !(bmem c.id (markDeleted (fun c => bmem c.channel (clubChannelIds db cid))
          db.conversations [])))
    feedbacks := db.feedbacks.filter (fun f => f.club != cid)
    replies := db.replies.filter (fun r =>
      !(bmem r.parent ((db.feedbacks.filter (fun f => f.club == cid)).map (·.id)))) }

/-- Deleting a User: fails (PROTECT on Project.leader) while some project
references the user as leader, in which case nothing at all is deleted.
Otherwise CASCADE deletes the user's membership requests, club memberships,
project memberships, channel subscriptions, authored conversations (and,
transitively through the parent cascade, their descendants) and authored
feedback (and the feedback's replies).  Posts have no user reference and are
untouched. -/
def deleteUser (db : DB) (uid : Nat) : Option DB :=
  if db.projects.any (fun p => p.leader == uid) then
    none
  else
    some { db with
      users := db.users.filter (fun u => u.id != uid)
      requests := db.requests.filter (fun q => q.user != uid)
      memberships := db.memberships.filter (fun m => m.user != uid)
      projectMemberships :=
        db.projectMemberships.filter (fun m => m.user != uid)
      subscriptions := db.subscriptions.filter (fun s => s.user != uid)
      conversations := db.conversations.filter (fun c =>
        !(bmem c.id (markDeleted (fun c => c.author == uid)
            db.conversations [])))
      feedbacks := db.feedbacks.filter (fun f => f.author != uid)
      replies := db.replies.filter (fun r =>
        !(bmem r.parent ((db.feedbacks.filter (fun f => f.author == uid)).map (·.id)))) }

/-- Deleting a Project: CASCADE deletes exactly the club-project join rows
and project memberships of the project; users and clubs are untouched. -/
def deleteProject (db : DB) (pid : Nat) : DB :=
  { db with
    projects := db.projects.filter (fun p => p.id != pid)
    clubProjects := db.clubProjects.filter (fun cp => cp.project != pid)
    projectMemberships :=
      db.projectMemberships.filter (fun m => m.project != pid) }

/-- Referential-integrity lookups used by the insert operations. -/
def hasUser (db : DB) (uid : Nat) : Bool :=
  db.users.any (fun u => u.id == uid)

def hasClub (db : DB) (cid : Nat) : Bool :=
  db.clubs.any (fun c => c.id == cid)

def hasClubRole (db : DB) (rid : Nat) : Bool :=
  db.roles.any (fun r => r.id == rid)

def hasProject (db : DB) (pid : Nat) : Bool :=
  db.projects.any (fun p => p.id == pid)

def hasChannel (db : DB) (cid : Nat) : Bool :=
  db.channels.any (fun c => c.id == cid)

def hasConversation (db : DB) (cid : Nat) : Bool :=
  db.conversations.any (fun c => c.id == cid)

def hasFeedback (db : DB) (fid : Nat) : Bool :=
  db.feedbacks.any (fun f => f.id == fid)

/-- The CRUD operations the schema admits.  Insertions carry the
client-supplied field values (time arguments are the clock readings for
auto_now_add fields); `Option` arguments are the genuinely optional fields
(defaulted or nullable).  Modelled from the spec: the only mutations are on
the `status` and `closed` fields, `closed` being set exactly once when a
request or project is finalized. -/
inductive Op where
  | insertUser
  | insertClub (name description : String)
  | insertRequest (user club : Nat) (time : Nat) (status : Option String)
  | insertClubRole (name description : String) (club : Nat)
      (privilege : Option String)
  | insertClubMembership (user club_role : Nat) (time : Nat)
  | insertProject (name description : String) (time : Nat) (leader : Nat)
  | insertClubProject (club project : Nat)
  | insertProjectMembership (user project : Nat) (time : Nat)
  | insertChannel (name description : String) (club : Nat)
  | insertChannelSubscription (user channel : Nat) (time : Nat)
  | insertPost (content : String) (time : Nat) (channel : Nat)
  | insertConversation (content : String) (time : Nat) (channel : Nat)
      (author : Nat) (parent : Option Nat)
  | insertFeedback (content : String) (time : Nat) (club : Nat) (author : Nat)
  | insertFeedbackReply (content : String) (time : Nat) (parent : Nat)
  | updateRequestStatus (rid : Nat) (st : String)
  | closeRequest (rid : Nat) (time : Nat)
  | closeProject (pid : Nat) (time : Nat)
  | delUser (uid : Nat)
  | delClub (cid : Nat)
  | delConversation (cid : Nat)
  | delProject (pid : Nat)

/-- One framework-level operation: `none` means the operation is rejected
(missing referenced row, violated uniqueness, value outside the declared
choices, protected deletion) and the database is unchanged. -/
def applyOp (db : DB) : Op → Option DB
  | .insertUser =>
      some { db with
        users := db.users ++ [⟨db.nextId⟩], nextId := db.nextId + 1 }
  | .insertClub name description =>
      some { db with
        clubs := db.clubs ++ [⟨db.nextId, name, description⟩]
        nextId := db.nextId + 1 }
  | .insertRequest user club time st =>
      let s := st.getD "PD"
      if hasUser db user && hasClub db club && bmem s STATUS_CHOICES then
        some { db with
          requests := db.requests ++ [⟨db.nextId, user, club, time, s, none⟩]
          nextId := db.nextId + 1 }
      else none
  | .insertClubRole name description club privilege =>
      let pr := privilege.getD "MEM"
      if hasClub db club && bmem pr PRIVILEGE_CHOICES then
        some { db with
          roles := db.roles ++ [⟨db.nextId, name, description, club, pr⟩]
          nextId := db.nextId + 1 }
      else none
  | .insertClubMembership user club_role time =>
      if hasUser db user && hasClubRole db club_role then
        some { db with
          memberships :=
            db.memberships ++ [⟨db.nextId, user, club_role, time⟩]
          nextId := db.nextId + 1 }
      else none
  | .insertProject name description time leader =>
      if hasUser db leader then
        some { db with
          projects :=
            db.projects ++ [⟨db.nextId, name, description, time, none, leader⟩]
          nextId := db.nextId + 1 }
      else none
  | .insertClubProject club project =>
      if hasClub db club && hasProject db project then
        some { db with
          clubProjects := db.clubProjects ++ [⟨db.nextId, club, project⟩]
          nextId := db.nextId + 1 }
      else none
  | .insertProjectMembership user project time =>
      if hasUser db user && hasProject db project then
        some { db with
          projectMemberships :=
            db.projectMemberships ++ [⟨db.nextId, user, project, time⟩]
          nextId := db.nextId + 1 }
      else none
  | .insertChannel name description club =>
      if hasClub db club && db.channels.all (fun ch => ch.club != club) then
        some { db with
          channels := db.channels ++ [⟨db.nextId, name, description, club⟩]
          nextId := db.nextId + 1 }
      else none
  | .insertChannelSubscription user channel time =>
      if hasUser db user && hasChannel db channel then
        some { db with
          subscriptions :=
            db.subscriptions ++ [⟨db.nextId, user, channel, time⟩]
          nextId := db.nextId + 1 }
      else none
  | .insertPost content time channel =>
      if hasChannel db channel then
        some { db with
          posts := db.posts ++ [⟨db.nextId, content, time, channel⟩]
          nextId := db.nextId + 1 }
      else none
  | .insertConversation content time channel author parent =>
      if hasChannel db channel && hasUser db author &&
         (match parent with
          | none => true
          | some p => hasConversation db p) then
        some { db with
          conversations :=
            db.conversations ++
              [⟨db.nextId, content, time, channel, author, parent⟩]
          nextId := db.nextId + 1 }
      else none
  | .insertFeedback content time club author =>
      if hasClub db club && hasUser db author then
        some { db with
          feedbacks := db.feedbacks ++ [⟨db.nextId, content, time, club, author⟩]
          nextId := db.nextId + 1 }
      else none
  | .insertFeedbackReply content time parent =>
      if hasFeedback db parent && db.replies.all (fun r => r.parent != parent) then
        some { db with
          replies := db.replies ++ [⟨db.nextId, content, time, parent⟩]
          nextId := db.nextId + 1 }
      else none
  | .updateRequestStatus rid st =>
      if bmem st STATUS_CHOICES && db.requests.any (fun r => r.id == rid) then
        some { db with
          requests := db.requests.map (fun r =>
            if r.id == rid then { r with status := st } else r) }
      else none
  | .closeRequest rid time =>
      if db.requests.any (fun r => r.id == rid && r.closed == none) then
        some { db with
          requests := db.requests.map (fun r =>
            if r.id == rid && r.closed == none then
              { r with closed := some time }
            else r) }
      else none
  | .closeProject pid time =>
      if db.projects.any (fun p => p.id == pid && p.closed == none) then
        some { db with
          projects := db.projects.map (fun p =>
            if p.id == pid && p.closed == none then
              { p with closed := some time }
            else p) }
      else none
  | .delUser uid => deleteUser db uid
  | .delClub cid => some (deleteClub db cid)
  | .delConversation cid => some (deleteConversation db cid)
  | .delProject pid => some (deleteProject db pid)

/-!
Raw insertion attempts: the client may omit individual fields (`none`).
A missing required field makes the attempt fail: the result is `none` and no
state is produced, the database is unchanged.  Fields with a declared
default (`status`, `privilege`) or nullable fields (`parent` of a
conversation) may be omitted and are defaulted by the operation itself.
-/

def rawInsertClub (db : DB) (name description : Option String) : Option DB :=
  match name, description with
  | some n, some d => applyOp db (Op.insertClub n d)
  | _, _ => none

def rawInsertRequest (db : DB) (user club : Option Nat) (time : Nat)
    (st : Option String) : Option DB :=
  match user, club with
  | some u, some c => applyOp db (Op.insertRequest u c time st)
  | _, _ => none

def rawInsertClubRole (db : DB) (name description : Option String)
    (club : Option Nat) (privilege : Option String) : Option DB :=
  match name, description, club with
  | some n, some d, some c => applyOp db (Op.insertClubRole n d c privilege)
  | _, _, _ => none

def rawInsertClubMembership (db : DB) (user club_role : Option Nat)
    (time : Nat) : Option DB :=
  match user, club_role with
  | some u, some c => applyOp db (Op.insertClubMembership u c time)
  | _, _ => none

def rawInsertProject (db : DB) (name description : Option String)
    (time : Nat) (leader : Option Nat) : Option DB :=
  match name, description, leader with
  | some n, some d, some l => applyOp db (Op.insertProject n d time l)
  | _, _, _ => none

def rawInsertClubProject (db : DB) (club project : Option Nat) : Option DB :=
  match club, project with
  | some c, some p => applyOp db (Op.insertClubProject c p)
  | _, _ => none

def rawInsertProjectMembership (db : DB) (user project : Option Nat)
    (time : Nat) : Option DB :=
  match user, project with
  | some u, some p => applyOp db (Op.insertProjectMembership u p time)
  | _, _ => none

def rawInsertChannel (db : DB) (name description : Option String)
    (club : Option Nat) : Option DB :=
  match name, description, club with
  | some n, some d, some c => applyOp db (Op.insertChannel n d c)
  | _, _, _ => none

def rawInsertChannelSubscription (db : DB) (user channel : Option Nat)
    (time : Nat) : Option DB :=
  match user, channel with
  | some u, some c => applyOp db (Op.insertChannelSubscription u c time)
  | _, _ => none

def rawInsertPost (db : DB) (content : Option String) (time : Nat)
    (channel : Option Nat) : Option DB :=
  match content, channel with
  | some co, some ch => applyOp db (Op.insertPost co time ch)
  | _, _ => none

def rawInsertConversation (db : DB) (content : Option String) (time : Nat)
    (channel author : Option Nat) (parent : Option Nat) : Option DB :=
  match content, channel, author with
  | some co, some ch, some au =>
      applyOp db (Op.insertConversation co time ch au parent)
  | _, _, _ => none

def rawInsertFeedback (db : DB) (content : Option String) (time : Nat)
    (club author : Option Nat) : Option DB :=
  match content, club, author with
  | some co, some cl, some au =>
      applyOp db (Op.insertFeedback co time cl au)
  | _, _, _ => none

def rawInsertFeedbackReply (db : DB) (content : Option String) (time : Nat)
    (parent : Option Nat) : Option DB :=
  match content, parent with
  | some co, some p => applyOp db (Op.insertFeedbackReply co time p)
  | _, _ => none

/-- The reachable database states: those built from the empty database by a
sequence of successful operations. -/
inductive Reachable : DB → Prop
  | empty : Reachable emptyDB
  | step {db db' : DB} (op : Op) :
      Reachable db → applyOp db op = some db' → Reachable db'

/-- Zero or more successful operations between two states. -/
inductive Steps : DB → DB → Prop
  | refl (db : DB) : Steps db db
  | tail {db db' db'' : DB} (op : Op) :
      Steps db db' → applyOp db' op = some db'' → Steps db db''

/-- `c` is a strict descendant of `a` through the parent relation of the
given conversation table. -/
inductive Desc (convs : List Conversation) : Conversation → Conversation → Prop
  | child {a c : Conversation} :
      c ∈ convs → c.parent = some a.id → Desc convs a c
  | step {a b c : Conversation} :
      Desc convs a b → c ∈ convs → c.parent = some b.id → Desc convs a c

/-- An id is justified for the cascade when some conversation carrying it is
directly collected or descends from a directly collected conversation. -/
def Justified (full : List Conversation) (direct : Conversation → Bool)
    (x : Nat) : Prop :=
  ∃ c ∈ full, c.id = x ∧
    (direct c = true ∨ ∃ a ∈ full, direct a = true ∧ Desc full a c)

/-- Ids of every table are below the primary-key counter and are distinct
(true of every reachable state; stated for the tables carrying creation
timestamps). -/
def WF (db : DB) : Prop :=
  ((∀ r ∈ db.requests, r.id < db.nextId) ∧
    (db.requests.map (·.id)).Nodup) ∧
  ((∀ p ∈ db.projects, p.id < db.nextId) ∧
    (db.projects.map (·.id)).Nodup) ∧
  ((∀ m ∈ db.memberships, m.id < db.nextId) ∧
    (db.memberships.map (·.id)).Nodup) ∧
  ((∀ m ∈ db.projectMemberships, m.id < db.nextId) ∧
    (db.projectMemberships.map (·.id)).Nodup) ∧
  ((∀ s ∈ db.subscriptions, s.id < db.nextId) ∧
    (db.subscriptions.map (·.id)).Nodup) ∧
  ((∀ p ∈ db.posts, p.id < db.nextId) ∧
    (db.posts.map (·.id)).Nodup) ∧
  ((∀ c ∈ db.conversations, c.id < db.nextId) ∧
    (db.conversations.map (·.id)).Nodup) ∧
  ((∀ f ∈ db.feedbacks, f.id < db.nextId) ∧
    (db.feedbacks.map (·.id)).Nodup) ∧
  ((∀ r ∈ db.replies, r.id < db.nextId) ∧
    (db.replies.map (·.id)).Nodup)

/-- Rows of the new table either are new (id at least the old counter) or
stem from an old row with the same id related by `ok` (same creation
timestamp, monotone `closed`). -/
def TraceOK {α : Type} (idf : α → Nat) (ok : α → α → Prop) (n : Nat)
    (old new : List α) : Prop :=
  ∀ r ∈ new, n ≤ idf r ∨ ∃ r0 ∈ old, idf r0 = idf r ∧ ok r0 r

/-- Relation between an old and a new request row: creation timestamp kept,
`closed` only ever set while null. -/
def reqOk (r r' : ClubMembershipRequest) : Prop :=
  r'.initiated = r.initiated ∧ (r.closed = none ∨ r'.closed = r.closed)

/-- Relation between an old and a new project row: creation timestamp kept,
`closed` only ever set while null. -/
def projOk (p p' : Project) : Prop :=
  p'.started = p.started ∧ (p.closed = none ∨ p'.closed = p.closed)

/-- One operation relates consecutive states: the primary-key counter never
decreases, and on every timestamp-carrying table each surviving row keeps
its id, its creation timestamp, and moves `closed` only from null. -/
def StepTrace (db db' : DB) : Prop :=
  db.nextId ≤ db'.nextId ∧
  TraceOK (fun r : ClubMembershipRequest => r.id) reqOk db.nextId
    db.requests db'.requests ∧
  TraceOK (fun p : Project => p.id) projOk db.nextId
    db.projects db'.projects ∧
  TraceOK (fun m : ClubMembership => m.id) (fun a b => b.joined = a.joined)
    db.nextId db.memberships db'.memberships ∧
  TraceOK (fun m : ProjectMembership => m.id) (fun a b => b.joined = a.joined)
    db.nextId db.projectMemberships db'.projectMemberships ∧
  TraceOK (fun s : ChannelSubscription => s.id) (fun a b => b.joined = a.joined)
    db.nextId db.subscriptions db'.subscriptions ∧
  TraceOK (fun p : Post => p.id) (fun a b => b.created = a.created)
    db.nextId db.posts db'.posts ∧
  TraceOK (fun c : Conversation => c.id) (fun a b => b.created = a.created)
    db.nextId db.conversations db'.conversations ∧
  TraceOK (fun f : Feedback => f.id) (fun a b => b.created = a.created)
    db.nextId db.feedbacks db'.feedbacks ∧
  TraceOK (fun r : FeedbackReply => r.id) (fun a b => b.created = a.created)
    db.nextId db.replies db'.replies

/-! ### Concrete databases used to instantiate the theorems -/

/-- A user leading a project. -/
def dbLead : DB :=
  { emptyDB with
    users := [⟨1⟩]
    projects := [⟨2, "p", "d", 0, none, 1⟩]
    nextId := 3 }

/-- A club with a channel, a post, a threaded conversation by two authors,
a role, a request and feedback with a reply. -/
def dbClub : DB :=
  { emptyDB with
    users := [⟨1⟩, ⟨2⟩]
    clubs := [⟨10, "c", "d"⟩]
    channels := [⟨20, "ch", "d", 10⟩]
    conversations :=
      [⟨30, "root", 0, 20, 1, none⟩, ⟨31, "child", 1, 20, 2, some 30⟩]
    posts := [⟨40, "post", 0, 20⟩]
    roles := [⟨50, "r", "d", 10, "MEM"⟩]
    requests := [⟨60, 1, 10, 0, "PD", none⟩]
    feedbacks := [⟨70, "f", 0, 10, 1⟩]
    replies := [⟨71, "re", 1, 70⟩]
    nextId := 100 }

/-- The state after deleting user 1 from `dbClub`. -/
def dbClubDelU1 : DB := (deleteUser dbClub 1).getD emptyDB

/-- A user and a club, ready for a membership request. -/
def dbReq : DB :=
  { emptyDB with users := [⟨1⟩], clubs := [⟨2, "c", "d"⟩], nextId := 3 }

/-- The state after inserting a membership request into `dbReq` with no
explicit status. -/
def dbReqAfter : DB :=
  { dbReq with requests := [⟨3, 1, 2, 0, "PD", none⟩], nextId := 4 }

/-- A pending membership request. -/
def dbOpen : DB :=
  { emptyDB with requests := [⟨0, 1, 2, 5, "PD", none⟩], nextId := 3 }

/-- The state after closing the request of `dbOpen` at time 7. -/
def dbOpenClosed : DB :=
  { dbOpen with requests := [⟨0, 1, 2, 5, "PD", some 7⟩] }

/-! ### Lemmas about the conversation cascade collection -/

theorem bmem_iff {α : Type} [BEq α] [LawfulBEq α] {x : α} {l : List α} :
    bmem x l = true ↔ x ∈ l := by
  simp [bmem]

theorem markDeleted_mono (direct : Conversation → Bool) :
    ∀ (l : List Conversation) (acc : List Nat) (x : Nat), x ∈ acc →
      x ∈ markDeleted direct l acc := by
  intro l
  induction l with
  | nil => intro acc x hx; simpa [markDeleted] using hx
  | cons c rest ih =>
    intro acc x hx
    simp only [markDeleted]
    split
    · exact ih _ _ (List.mem_cons_of_mem _ hx)
    · exact ih _ _ hx

theorem markDeleted_sources (direct : Conversation → Bool) :
    ∀ (l : List Conversation) (acc : List Nat) (x : Nat),
      x ∈ markDeleted direct l acc → x ∈ acc ∨ ∃ c ∈ l, c.id = x := by
  intro l
  induction l with
  | nil => intro acc x hx; exact Or.inl (by simpa [markDeleted] using hx)
  | cons c rest ih =>
    intro acc x hx
    simp only [markDeleted] at hx
    split at hx
    · rcases ih _ _ hx with hacc | ⟨d, hd, hdx⟩
      · rcases List.mem_cons.mp hacc with rfl | h
        · exact Or.inr ⟨c, List.mem_cons_self c rest, rfl⟩
        · exact Or.inl h
      · exact Or.inr ⟨d, List.mem_cons_of_mem _ hd, hdx⟩
    · rcases ih _ _ hx with hacc | ⟨d, hd, hdx⟩
      · exact Or.inl hacc
      · exact Or.inr ⟨d, List.mem_cons_of_mem _ hd, hdx⟩

theorem markDeleted_of_direct (direct : Conversation → Bool) :
    ∀ (l : List Conversation) (acc : List Nat) (c : Conversation), c ∈ l →
      direct c = true → c.id ∈ markDeleted direct l acc := by
  intro l
  induction l with
  | nil => intro acc c hc; exact absurd hc (List.not_mem_nil c)
  | cons d rest ih =>
    intro acc c hc hdir
    rcases List.mem_cons.mp hc with rfl | htail
    · simp only [markDeleted, hdir, Bool.true_or, if_true]
      exact markDeleted_mono direct rest _ _ (List.mem_cons_self _ _)
    · simp only [markDeleted]
      split
      · exact ih _ _ htail hdir
      · exact ih _ _ htail hdir

theorem markDeleted_parent (direct : Conversation → Bool) :
    ∀ (l : List Conversation), parentsEarlier l = true →
      ∀ (acc : List Nat) (c : Conversation) (p : Nat), c ∈ l →
        c.parent = some p → p ∈ markDeleted direct l acc →
        c.id ∈ markDeleted direct l acc := by
  intro l
  induction l with
  | nil => intro _ acc c p hc; exact absurd hc (List.not_mem_nil c)
  | cons d rest ih =>
    intro hPE acc c p hc hp hpm
    have hPEcons := hPE
    simp only [parentsEarlier, Bool.and_eq_true, List.all_eq_true,
      bne_iff_ne, ne_eq] at hPEcons
    rcases List.mem_cons.mp hc with rfl | htail
    · -- c is the head: its parent cannot be an id of the head or the tail,
      -- so the collected p must come from the accumulator
      rcases markDeleted_sources direct _ _ _ hpm with hacc | ⟨e, he, hex⟩
      · have hguard :
            (direct c || (match c.parent with
                          | some q => bmem q acc
                          | none => false)) = true := by
          rcases hdir : direct c with _ | _
          · simp only [hdir, Bool.false_or, hp]
            exact bmem_iff.mpr hacc
          · simp [hdir]
        simp only [markDeleted, hguard, if_true]
        exact markDeleted_mono direct rest _ _ (List.mem_cons_self _ _)
      · exact absurd (hp.trans (congrArg some hex.symm))
          (hPEcons.1 e he)
    · -- c is in the tail: recurse with the updated accumulator
      simp only [markDeleted] at hpm ⊢
      split at hpm
      · rename_i hg
        simp only [hg, if_true]
        exact ih hPEcons.2 _ _ _ htail hp hpm
      · rename_i hg
        simp only [hg, if_false]
        exact ih hPEcons.2 _ _ _ htail hp hpm

theorem markDeleted_of_desc (direct : Conversation → Bool)
    (l : List Conversation) (hPE : parentsEarlier l = true)
    {a c : Conversation} (ha : a ∈ l) (hdir : direct a = true)
    (hd : Desc l a c) : c.id ∈ markDeleted direct l [] := by
  induction hd with
  | child hc hp =>
    exact markDeleted_parent direct l hPE [] _ _ hc hp
      (markDeleted_of_direct direct l [] a ha hdir)
  | step _ hc hp ih =>
    exact markDeleted_parent direct l hPE [] _ _ hc hp ih

theorem markDeleted_justified (full : List Conversation)
    (direct : Conversation → Bool) :
    ∀ (l : List Conversation) (acc : List Nat), l ⊆ full →
      (∀ x ∈ acc, Justified full direct x) →
      ∀ x ∈ markDeleted direct l acc, Justified full direct x := by
  intro l
  induction l with
  | nil => intro acc _ hacc x hx; exact hacc x (by simpa [markDeleted] using hx)
  | cons d rest ih =>
    intro acc hsub hacc x hx
    have hdfull : d ∈ full := hsub (List.mem_cons_self d rest)
    have hrest : rest ⊆ full := fun y hy => hsub (List.mem_cons_of_mem _ hy)
    simp only [markDeleted] at hx
    split at hx
    · rename_i hg
      refine ih _ hrest ?_ x hx
      intro y hy
      rcases List.mem_cons.mp hy with rfl | hyacc
      · -- the head was collected: justify its id
        rcases Bool.or_eq_true_iff.mp hg with hdir | hpar
        · exact ⟨d, hdfull, rfl, Or.inl hdir⟩
        · rcases hdp : d.parent with _ | p
          · rw [hdp] at hpar; exact absurd hpar (by simp)
          · rw [hdp] at hpar
            have hpacc : p ∈ acc := bmem_iff.mp hpar
            rcases hacc p hpacc with ⟨cp, hcp, hcpid, hj⟩
            have hdesc : Desc full cp d :=
              Desc.child hdfull (by rw [hdp, hcpid])
            rcases hj with hcpdir | ⟨a, haf, hadir, hdesc2⟩
            · exact ⟨d, hdfull, rfl, Or.inr ⟨cp, hcp, hcpdir, hdesc⟩⟩
            · exact ⟨d, hdfull, rfl,
                Or.inr ⟨a, haf, hadir,
                  Desc.step hdesc2 hdfull (by rw [hdp, hcpid])⟩⟩
      · exact hacc y hyacc
    · exact ih _ hrest hacc x hx

/-! ### Claim theorems -/

/-- C10: deleting a Project deletes exactly the ProjectMembership and
ClubProject join rows whose project it is, and leaves every User row and
every Club row unchanged. -/
theorem deleteProject_frame (db : DB) (pid : Nat) :
    (∀ m, m ∈ (deleteProject db pid).projectMemberships ↔
      (m ∈ db.projectMemberships ∧ m.project ≠ pid)) ∧
    (∀ cp, cp ∈ (deleteProject db pid).clubProjects ↔
      (cp ∈ db.clubProjects ∧ cp.project ≠ pid)) ∧
    (∀ p, p ∈ (deleteProject db pid).projects ↔
      (p ∈ db.projects ∧ p.id ≠ pid)) ∧
    (deleteProject db pid).users = db.users ∧
    (deleteProject db pid).clubs = db.clubs := by
  refine ⟨?_, ?_, ?_, rfl, rfl⟩ <;>
    intro r <;> simp [deleteProject, List.mem_filter]

/-- C3: deleting a User referenced as leader by some Project fails, and the
failure (`none`) leaves the whole database unchanged: no cascade of the
user's other references is applied. -/
theorem deleteUser_protected (db : DB) (uid : Nat)
    (h : ∃ p ∈ db.projects, p.leader = uid) :
    deleteUser db uid = none := by
  rcases h with ⟨p, hp, hl⟩
  have hany : db.projects.any (fun p => p.leader == uid) = true :=
    List.any_eq_true.mpr ⟨p, hp, by simp [hl]⟩
  simp [deleteUser, hany]

theorem deleteUser_protected_witness : deleteUser dbLead 1 = none :=
  deleteUser_protected dbLead 1
    ⟨⟨2, "p", "d", 0, none, 1⟩, List.mem_singleton.mpr rfl, rfl⟩

/-- C1: deleting a Club deletes every ClubRole, ClubMembershipRequest,
Channel and Feedback of that club, and, transitively through the channel
deletion, every Post and Conversation whose channel was a channel of that
club. -/
theorem deleteClub_cascades (db : DB) (cid : Nat) :
    (∀ r ∈ (deleteClub db cid).roles, r.club ≠ cid) ∧
    (∀ q ∈ (deleteClub db cid).requests, q.club ≠ cid) ∧
    (∀ ch ∈ (deleteClub db cid).channels, ch.club ≠ cid) ∧
    (∀ f ∈ (deleteClub db cid).feedbacks, f.club ≠ cid) ∧
    (∀ p ∈ db.posts,
      (∃ ch ∈ db.channels, ch.id = p.channel ∧ ch.club = cid) →
      p ∉ (deleteClub db cid).posts) ∧
    (∀ cv ∈ db.conversations,
      (∃ ch ∈ db.channels, ch.id = cv.channel ∧ ch.club = cid) →
      cv ∉ (deleteClub db cid).conversations) := by
  have hch : ∀ x : Nat, (∃ ch ∈ db.channels, ch.id = x ∧ ch.club = cid) →
      bmem x (clubChannelIds db cid) = true := by
    intro x ⟨ch, hm, hid, hclub⟩
    simp only [clubChannelIds, bmem, List.any_eq_true, List.mem_map,
      List.mem_filter, beq_iff_eq]
    exact ⟨x, ⟨ch, ⟨hm, hclub⟩, hid⟩, rfl⟩
  refine ⟨?_, ?_, ?_, ?_, ?_, ?_⟩
  · intro r hr
    simpa [deleteClub, List.mem_filter] using (List.mem_filter.mp hr).2
  · intro q hq
    simpa using (List.mem_filter.mp hq).2
  · intro ch hc
    simpa using (List.mem_filter.mp hc).2
  · intro f hf
    simpa using (List.mem_filter.mp hf).2
  · intro p hp hex hmem
    have := (List.mem_filter.mp hmem).2
    rw [hch p.channel hex] at this
    exact absurd this (by simp)
  · intro cv hcv hex hmem
    have hdir : cv.id ∈ markDeleted
        (fun c => bmem c.channel (clubChannelIds db cid))
        db.conversations [] :=
      markDeleted_of_direct _ db.conversations [] cv hcv (hch cv.channel hex)
    have := (List.mem_filter.mp hmem).2
    rw [Bool.not_eq_true', ← Bool.not_eq_true, bmem_iff] at this
    exact this hdir

theorem deleteClub_cascades_witness :
    (⟨40, "post", 0, 20⟩ : Post) ∉ (deleteClub dbClub 10).posts ∧
    (⟨31, "child", 1, 20, 2, some 30⟩ : Conversation) ∉
      (deleteClub dbClub 10).conversations :=
  ⟨(deleteClub_cascades dbClub 10).2.2.2.2.1 ⟨40, "post", 0, 20⟩ (by decide)
      ⟨⟨20, "ch", "d", 10⟩, by decide, rfl, rfl⟩,
    (deleteClub_cascades dbClub 10).2.2.2.2.2 ⟨31, "child", 1, 20, 2, some 30⟩
      (by decide) ⟨⟨20, "ch", "d", 10⟩, by decide, rfl, rfl⟩⟩

/-- C4: deleting a Conversation deletes every child and, transitively, every
descendant reachable through the parent relation (stated for tables in which
every parent occurs earlier than its children, as in every reachable
state). -/
theorem deleteConversation_cascades (db : DB) (r : Conversation)
    (hPE : parentsEarlier db.conversations = true)
    (hr : r ∈ db.conversations) (c : Conversation)
    (hd : Desc db.conversations r c) :
    c ∉ (deleteConversation db r.id).conversations := by
  intro hmem
  have hdel : c.id ∈ markDeleted (fun c => c.id == r.id)
      db.conversations [] :=
    markDeleted_of_desc _ db.conversations hPE hr (by simp) hd
  have := (List.mem_filter.mp hmem).2
  rw [Bool.not_eq_true', ← Bool.not_eq_true, bmem_iff] at this
  exact this hdel

theorem deleteConversation_cascades_witness :
    (⟨31, "child", 1, 20, 2, some 30⟩ : Conversation) ∉
      (deleteConversation dbClub 30).conversations :=
  deleteConversation_cascades dbClub ⟨30, "root", 0, 20, 1, none⟩
    (by decide) (by decide) ⟨31, "child", 1, 20, 2, some 30⟩
    (Desc.child (by decide) rfl)

/-- C9: deleting a User (who leads no project) deletes, through the author
cascade on Conversation followed by the parent cascade, every descendant of
a conversation the user authored — the descendants' own authors need not be
the deleted user. -/
theorem deleteUser_cascades_descendants (db db' : DB) (uid : Nat)
    (hPE : parentsEarlier db.conversations = true)
    (h : deleteUser db uid = some db')
    (a : Conversation) (ha : a ∈ db.conversations) (hau : a.author = uid)
    (c : Conversation) (hd : Desc db.conversations a c) :
    c ∉ db'.conversations := by
  simp only [deleteUser] at h
  split at h
  · exact absurd h (by simp)
  · cases h
    intro hmem
    have hdel : c.id ∈ markDeleted (fun c => c.author == uid)
        db.conversations [] :=
      markDeleted_of_desc _ db.conversations hPE ha (by simp [hau]) hd
    have := (List.mem_filter.mp hmem).2
    rw [Bool.not_eq_true', ← Bool.not_eq_true, bmem_iff] at this
    exact this hdel

theorem deleteUser_cascades_descendants_witness :
    deleteUser dbClub 1 = some dbClubDelU1 ∧
    (⟨31, "child", 1, 20, 2, some 30⟩ : Conversation) ∉
      dbClubDelU1.conversations :=
  ⟨by decide,
    deleteUser_cascades_descendants dbClub dbClubDelU1 1 (by decide)
      (by decide) ⟨30, "root", 0, 20, 1, none⟩ (by decide) rfl
      ⟨31, "child", 1, 20, 2, some 30⟩ (Desc.child (by decide) rfl)⟩

/-- C2 fails as stated: deleting user 1 also deletes a conversation authored
by user 2, because it is a child of a conversation user 1 authored. -/
theorem deleteUser_frame_counterexample :
    deleteUser dbClub 1 = some dbClubDelU1 ∧
    (⟨31, "child", 1, 20, 2, some 30⟩ : Conversation) ∈
      dbClub.conversations ∧
    (⟨31, "child", 1, 20, 2, some 30⟩ : Conversation).author ≠ 1 ∧
    (⟨31, "child", 1, 20, 2, some 30⟩ : Conversation) ∉
      dbClubDelU1.conversations :=
  ⟨by decide, by decide, by decide, by decide⟩

/-- C2 (amended): deleting a User u who leads no Project deletes every
ClubMembershipRequest, ClubMembership, ChannelSubscription and Feedback that
u owns or authored, deletes exactly those Conversations that u authored or
that descend, through the parent cascade, from a conversation u authored, no
Post, and no other rows of those tables. -/
theorem deleteUser_cascade_frame (db db' : DB) (uid : Nat)
    (hPE : parentsEarlier db.conversations = true)
    (hND : (db.conversations.map (·.id)).Nodup)
    (h : deleteUser db uid = some db') :
    (∀ q, q ∈ db'.requests ↔ (q ∈ db.requests ∧ q.user ≠ uid)) ∧
    (∀ m, m ∈ db'.memberships ↔ (m ∈ db.memberships ∧ m.user ≠ uid)) ∧
    (∀ s, s ∈ db'.subscriptions ↔ (s ∈ db.subscriptions ∧ s.user ≠ uid)) ∧
    (∀ p, p ∈ db'.posts ↔ p ∈ db.posts) ∧
    (∀ f, f ∈ db'.feedbacks ↔ (f ∈ db.feedbacks ∧ f.author ≠ uid)) ∧
    (∀ c, c ∈ db'.conversations ↔
      (c ∈ db.conversations ∧ c.author ≠ uid ∧
        ¬ ∃ a ∈ db.conversations,
            a.author = uid ∧ Desc db.conversations a c)) := by
  simp only [deleteUser] at h
  split at h
  · exact absurd h (by simp)
  · cases h
    refine ⟨?_, ?_, ?_, ?_, ?_, ?_⟩
    · intro q; simp [List.mem_filter]
    · intro m; simp [List.mem_filter]
    · intro s; simp [List.mem_filter]
    · intro p; simp
    · intro f; simp [List.mem_filter]
    · intro c
      simp only [List.mem_filter, Bool.not_eq_true', ← Bool.not_eq_true,
        bmem_iff]
      constructor
      · rintro ⟨hc, hnm⟩
        refine ⟨hc, ?_, ?_⟩
        · intro hau
          exact hnm (markDeleted_of_direct _ db.conversations [] c hc
            (by simp [hau]))
        · rintro ⟨a, ha, hau, hdesc⟩
          exact hnm (markDeleted_of_desc _ db.conversations hPE ha
            (by simp [hau]) hdesc)
      · rintro ⟨hc, hau, hnd⟩
        refine ⟨hc, ?_⟩
        intro hmem
        rcases markDeleted_justified db.conversations _ db.conversations []
            (fun _ hx => hx) (by simp) c.id hmem with
          ⟨c', hc', hcid, hj⟩
        have hcc : c' = c :=
          List.inj_on_of_nodup_map hND hc' hc hcid
        subst hcc
        rcases hj with hdir | ⟨a, ha, hadir, hdesc⟩
        · exact hau (by simpa using hdir)
        · exact hnd ⟨a, ha, by simpa using hadir, hdesc⟩

theorem deleteUser_cascade_frame_witness :
    (⟨31, "child", 1, 20, 2, some 30⟩ : Conversation) ∉
      dbClubDelU1.conversations ∧
    (⟨40, "post", 0, 20⟩ : Post) ∈ dbClubDelU1.posts := by
  have hframe := deleteUser_cascade_frame dbClub dbClubDelU1 1
    (by decide) (by decide) (by decide)
  constructor
  · intro hmem
    have := (hframe.2.2.2.2.2 ⟨31, "child", 1, 20, 2, some 30⟩).mp hmem
    exact this.2.2 ⟨⟨30, "root", 0, 20, 1, none⟩, by decide, rfl,
      Desc.child (by decide) rfl⟩
  · exact (hframe.2.2.2.1 ⟨40, "post", 0, 20⟩).mpr (by decide)

/-! ### Invariant preservation for the one-to-one reply constraint -/

theorem applyOp_replies_pairwise {db db' : DB} {op : Op}
    (h : applyOp db op = some db')
    (inv : db.replies.Pairwise (fun a b => a.parent ≠ b.parent)) :
    db'.replies.Pairwise (fun a b => a.parent ≠ b.parent) := by
  cases op <;> simp only [applyOp] at h
  case insertUser => cases h; exact inv
  case insertClub => cases h; exact inv
  case insertRequest =>
    split at h
    · cases h; exact inv
    · exact Option.noConfusion h
  case insertClubRole =>
    split at h
    · cases h; exact inv
    · exact Option.noConfusion h
  case insertClubMembership =>
    split at h
    · cases h; exact inv
    · exact Option.noConfusion h
  case insertProject =>
    split at h
    · cases h; exact inv
    · exact Option.noConfusion h
  case insertClubProject =>
    split at h
    · cases h; exact inv
    · exact Option.noConfusion h
  case insertProjectMembership =>
    split at h
    · cases h; exact inv
    · exact Option.noConfusion h
  case insertChannel =>
    split at h
    · cases h; exact inv
    · exact Option.noConfusion h
  case insertChannelSubscription =>
    split at h
    · cases h; exact inv
    · exact Option.noConfusion h
  case insertPost =>
    split at h
    · cases h; exact inv
    · exact Option.noConfusion h
  case insertConversation =>
    split at h
    · cases h; exact inv
    · exact Option.noConfusion h
  case insertFeedback =>
    split at h
    · cases h; exact inv
    · exact Option.noConfusion h
  case insertFeedbackReply content time parent =>
    split at h
    · rename_i hg
      cases h
      rw [List.pairwise_append]
      refine ⟨inv, List.pairwise_singleton _ _, ?_⟩
      intro a ha b hb
      rcases List.mem_singleton.mp hb with rfl
      rw [Bool.and_eq_true] at hg
      have hall := hg.2
      rw [List.all_eq_true] at hall
      simpa using hall a ha
    · exact Option.noConfusion h
  case updateRequestStatus =>
    split at h
    · cases h; exact inv
    · exact Option.noConfusion h
  case closeRequest =>
    split at h
    · cases h; exact inv
    · exact Option.noConfusion h
  case closeProject =>
    split at h
    · cases h; exact inv
    · exact Option.noConfusion h
  case delUser =>
    simp only [deleteUser] at h
    split at h
    · exact Option.noConfusion h
    · cases h; exact inv.sublist (List.filter_sublist _)
  case delClub =>
    cases h; exact inv.sublist (List.filter_sublist _)
  case delConversation => cases h; exact inv
  case delProject => cases h; exact inv

theorem reachable_replies_pairwise {db : DB} (h : Reachable db) :
    db.replies.Pairwise (fun a b => a.parent ≠ b.parent) := by
  induction h with
  | empty => simp [emptyDB]
  | step op _ hstep ih => exact applyOp_replies_pairwise hstep ih

/-- C5: in every reachable state each Feedback is referenced by at most one
FeedbackReply (the parents of the reply rows are pairwise distinct), and an
attempt to create a second reply for an already-replied Feedback fails. -/
theorem feedbackReply_one_to_one :
    (∀ db : DB, Reachable db →
      db.replies.Pairwise (fun a b => a.parent ≠ b.parent)) ∧
    (∀ (db : DB) (content : String) (time fid : Nat),
      (∃ r ∈ db.replies, r.parent = fid) →
      applyOp db (Op.insertFeedbackReply content time fid) = none) := by
  refine ⟨fun db h => reachable_replies_pairwise h, ?_⟩
  intro db content time fid ⟨r, hr, hrp⟩
  have hall : db.replies.all (fun r => r.parent != fid) = false := by
    rw [← Bool.not_eq_true, List.all_eq_true]
    intro hforall
    exact absurd hrp (by simpa using hforall r hr)
  simp [applyOp, hall]

theorem feedbackReply_one_to_one_witness :
    dbClub.replies.Pairwise (fun a b => a.parent ≠ b.parent) ∧
    applyOp dbClub (Op.insertFeedbackReply "again" 2 70) = none :=
  ⟨by decide,
    feedbackReply_one_to_one.2 dbClub "again" 2 70
      ⟨⟨71, "re", 1, 70⟩, by decide, rfl⟩⟩

/-! ### Invariant preservation for the request status enumeration -/

theorem applyOp_status_choices {db db' : DB} {op : Op}
    (h : applyOp db op = some db')
    (inv : ∀ r ∈ db.requests, r.status ∈ STATUS_CHOICES) :
    ∀ r ∈ db'.requests, r.status ∈ STATUS_CHOICES := by
  cases op <;> simp only [applyOp] at h
  case insertUser => cases h; exact inv
  case insertClub => cases h; exact inv
  case insertRequest user club time st =>
    split at h
    · rename_i hg
      cases h
      intro r hr
      rcases List.mem_append.mp hr with hold | hnew
      · exact inv r hold
      · rcases List.mem_singleton.mp hnew with rfl
        rw [Bool.and_eq_true] at hg
        exact bmem_iff.mp hg.2
    · exact Option.noConfusion h
  case insertClubRole =>
    split at h
    · cases h; exact inv
    · exact Option.noConfusion h
  case insertClubMembership =>
    split at h
    · cases h; exact inv
    · exact Option.noConfusion h
  case insertProject =>
    split at h
    · cases h; exact inv
    · exact Option.noConfusion h
  case insertClubProject =>
    split at h
    · cases h; exact inv
    · exact Option.noConfusion h
  case insertProjectMembership =>
    split at h
    · cases h; exact inv
    · exact Option.noConfusion h
  case insertChannel =>
    split at h
    · cases h; exact inv
    · exact Option.noConfusion h
  case insertChannelSubscription =>
    split at h
    · cases h; exact inv
    · exact Option.noConfusion h
  case insertPost =>
    split at h
    · cases h; exact inv
    · exact Option.noConfusion h
  case insertConversation =>
    split at h
    · cases h; exact inv
    · exact Option.noConfusion h
  case insertFeedback =>
    split at h
    · cases h; exact inv
    · exact Option.noConfusion h
  case insertFeedbackReply =>
    split at h
    · cases h; exact inv
    · exact Option.noConfusion h
  case updateRequestStatus rid st =>
    split at h
    · rename_i hg
      cases h
      intro r hr
      rcases List.mem_map.mp hr with ⟨r0, hr0, hfr⟩
      rw [Bool.and_eq_true] at hg
      by_cases hid : (r0.id == rid) = true
      · rw [if_pos hid] at hfr
        rw [← hfr]
        exact bmem_iff.mp hg.1
      · rw [if_neg hid] at hfr
        rw [← hfr]
        exact inv r0 hr0
    · exact Option.noConfusion h
  case closeRequest rid time =>
    split at h
    · cases h
      intro r hr
      rcases List.mem_map.mp hr with ⟨r0, hr0, hfr⟩
      by_cases hid : (r0.id == rid && r0.closed == none) = true
      · rw [if_pos hid] at hfr
        rw [← hfr]
        exact inv r0 hr0
      · rw [if_neg hid] at hfr
        rw [← hfr]
        exact inv r0 hr0
    · exact Option.noConfusion h
  case closeProject =>
    split at h
    · cases h; exact inv
    · exact Option.noConfusion h
  case delUser =>
    simp only [deleteUser] at h
    split at h
    · exact Option.noConfusion h
    · cases h
      intro r hr
      exact inv r (List.mem_filter.mp hr).1
  case delClub =>
    cases h
    intro r hr
    exact inv r (List.mem_filter.mp hr).1
  case delConversation => cases h; exact inv
  case delProject => cases h; exact inv

theorem reachable_status_choices {db : DB} (h : Reachable db) :
    ∀ r ∈ db.requests, r.status ∈ STATUS_CHOICES := by
  induction h with
  | empty => intro r hr; exact absurd hr (by simp [emptyDB])
  | step op _ hstep ih => exact applyOp_status_choices hstep ih

/-- C6: a ClubMembershipRequest created without an explicit status gets the
status "PD" (Pending), and in every reachable state the status of every
request is one of exactly the four declared values "PD", "AC", "RE", "CN"
(Pending, Accepted, Rejected, Cancelled). -/
theorem request_status_default_and_choices :
    (∀ (db db' : DB) (user club time : Nat),
      applyOp db (Op.insertRequest user club time none) = some db' →
      ∀ r ∈ db'.requests, r ∉ db.requests → r.status = "PD") ∧
    (∀ db : DB, Reachable db → ∀ r ∈ db.requests,
      r.status ∈ STATUS_CHOICES) := by
  refine ⟨?_, fun db h => reachable_status_choices h⟩
  intro db db' user club time h r hr hnew
  simp only [applyOp, Option.getD_none] at h
  split at h
  · cases h
    rcases List.mem_append.mp hr with hold | hsingle
    · exact absurd hold hnew
    · rcases List.mem_singleton.mp hsingle with rfl
      rfl
  · exact Option.noConfusion h

theorem request_status_default_witness :
    applyOp dbReq (Op.insertRequest 1 2 0 none) = some dbReqAfter ∧
    (⟨3, 1, 2, 0, "PD", none⟩ : ClubMembershipRequest).status = "PD" :=
  ⟨by decide,
    request_status_default_and_choices.1 dbReq dbReqAfter 1 2 0 (by decide)
      ⟨3, 1, 2, 0, "PD", none⟩ (by decide) (by decide)⟩

/-! ### Creation timestamps along operation sequences -/

theorem traceOK_self {α : Type} (idf : α → Nat) (ok : α → α → Prop)
    (n : Nat) (l : List α) (hok : ∀ r, ok r r) : TraceOK idf ok n l l :=
  fun r hr => Or.inr ⟨r, hr, rfl, hok r⟩

theorem traceOK_filter {α : Type} (idf : α → Nat) (ok : α → α → Prop)
    (n : Nat) (l : List α) (p : α → Bool) (hok : ∀ r, ok r r) :
    TraceOK idf ok n l (l.filter p) :=
  fun r hr => Or.inr ⟨r, (List.mem_filter.mp hr).1, rfl, hok r⟩

theorem traceOK_append {α : Type} (idf : α → Nat) (ok : α → α → Prop)
    (n : Nat) (l : List α) (x : α) (hx : n ≤ idf x) (hok : ∀ r, ok r r) :
    TraceOK idf ok n l (l ++ [x]) := by
  intro r hr
  rcases List.mem_append.mp hr with hold | hnew
  · exact Or.inr ⟨r, hold, rfl, hok r⟩
  · rcases List.mem_singleton.mp hnew with rfl
    exact Or.inl hx

theorem traceOK_map {α : Type} (idf : α → Nat) (ok : α → α → Prop)
    (n : Nat) (l : List α) (f : α → α)
    (hf : ∀ r, idf (f r) = idf r ∧ ok r (f r)) :
    TraceOK idf ok n l (l.map f) := by
  intro r hr
  rcases List.mem_map.mp hr with ⟨r0, hr0, rfl⟩
  exact Or.inr ⟨r0, hr0, (hf r0).1.symm, (hf r0).2⟩

theorem traceOK_trans {α : Type} (idf : α → Nat) (ok : α → α → Prop)
    {n n' : Nat} {l l' l'' : List α}
    (htrans : ∀ a b c, ok a b → ok b c → ok a c) (hn : n ≤ n')
    (h1 : TraceOK idf ok n l l') (h2 : TraceOK idf ok n' l' l'') :
    TraceOK idf ok n l l'' := by
  intro r hr
  rcases h2 r hr with hge | ⟨r1, hr1, hid1, hok1⟩
  · exact Or.inl (hn.trans hge)
  · rcases h1 r1 hr1 with hge | ⟨r0, hr0, hid0, hok0⟩
    · exact Or.inl (hid1 ▸ hge)
    · exact Or.inr ⟨r0, hr0, hid0.trans hid1, htrans _ _ _ hok0 hok1⟩

theorem traceOK_extract {α : Type} (idf : α → Nat) (ok : α → α → Prop)
    {n : Nat} {l l' : List α} (htr : TraceOK idf ok n l l')
    (hbound : ∀ r ∈ l, idf r < n) (hnd : (l.map idf).Nodup) :
    ∀ r ∈ l, ∀ r' ∈ l', idf r' = idf r → ok r r' := by
  intro r hr r' hr' hid
  rcases htr r' hr' with hge | ⟨r0, hr0, hid0, hok⟩
  · exact absurd (hid ▸ hge) (Nat.not_le.mpr (hbound r hr))
  · have : r0 = r := List.inj_on_of_nodup_map hnd hr0 hr (hid0.trans hid)
    subst this
    exact hok

theorem reqOk_refl : ∀ r, reqOk r r := fun _ => ⟨rfl, Or.inr rfl⟩

theorem projOk_refl : ∀ p, projOk p p := fun _ => ⟨rfl, Or.inr rfl⟩

theorem reqOk_trans : ∀ a b c, reqOk a b → reqOk b c → reqOk a c := by
  rintro a b c ⟨hi1, hc1⟩ ⟨hi2, hc2⟩
  refine ⟨hi2.trans hi1, ?_⟩
  rcases hc1 with h1 | h1
  · exact Or.inl h1
  · rcases hc2 with h2 | h2
    · exact Or.inl (h1 ▸ h2)
    · exact Or.inr (h2.trans h1)

theorem projOk_trans : ∀ a b c, projOk a b → projOk b c → projOk a c := by
  rintro a b c ⟨hi1, hc1⟩ ⟨hi2, hc2⟩
  refine ⟨hi2.trans hi1, ?_⟩
  rcases hc1 with h1 | h1
  · exact Or.inl h1
  · rcases hc2 with h2 | h2
    · exact Or.inl (h1 ▸ h2)
    · exact Or.inr (h2.trans h1)

theorem stepTrace_refl (db : DB) : StepTrace db db :=
  ⟨Nat.le_refl _,
    traceOK_self _ _ _ _ reqOk_refl,
    traceOK_self _ _ _ _ projOk_refl,
    traceOK_self _ _ _ _ (fun _ => rfl),
    traceOK_self _ _ _ _ (fun _ => rfl),
    traceOK_self _ _ _ _ (fun _ => rfl),
    traceOK_self _ _ _ _ (fun _ => rfl),
    traceOK_self _ _ _ _ (fun _ => rfl),
    traceOK_self _ _ _ _ (fun _ => rfl),
    traceOK_self _ _ _ _ (fun _ => rfl)⟩

theorem stepTrace_trans {db db' db'' : DB} (h1 : StepTrace db db')
    (h2 : StepTrace db' db'') : StepTrace db db'' :=
  ⟨h1.1.trans h2.1,
    traceOK_trans _ _ reqOk_trans h1.1 h1.2.1 h2.2.1,
    traceOK_trans _ _ projOk_trans h1.1 h1.2.2.1 h2.2.2.1,
    traceOK_trans _ _ (fun _ _ _ p q => q.trans p) h1.1 h1.2.2.2.1 h2.2.2.2.1,
    traceOK_trans _ _ (fun _ _ _ p q => q.trans p) h1.1
      h1.2.2.2.2.1 h2.2.2.2.2.1,
    traceOK_trans _ _ (fun _ _ _ p q => q.trans p) h1.1
      h1.2.2.2.2.2.1 h2.2.2.2.2.2.1,
    traceOK_trans _ _ (fun _ _ _ p q => q.trans p) h1.1
      h1.2.2.2.2.2.2.1 h2.2.2.2.2.2.2.1,
    traceOK_trans _ _ (fun _ _ _ p q => q.trans p) h1.1
      h1.2.2.2.2.2.2.2.1 h2.2.2.2.2.2.2.2.1,
    traceOK_trans _ _ (fun _ _ _ p q => q.trans p) h1.1
      h1.2.2.2.2.2.2.2.2.1 h2.2.2.2.2.2.2.2.2.1,
    traceOK_trans _ _ (fun _ _ _ p q => q.trans p) h1.1
      h1.2.2.2.2.2.2.2.2.2 h2.2.2.2.2.2.2.2.2.2⟩

theorem reqOk_update (rid : Nat) (st : String) :
    ∀ r : ClubMembershipRequest,
      (if r.id == rid then { r with status := st } else r).id = r.id ∧
      reqOk r (if r.id == rid then { r with status := st } else r) := by
  intro r
  by_cases hid : (r.id == rid) = true
  · simp [hid, reqOk]
  · simp [hid, reqOk]

theorem reqOk_close (rid time : Nat) :
    ∀ r : ClubMembershipRequest,
      (if r.id == rid && r.closed == none then
        { r with closed := some time } else r).id = r.id ∧
      reqOk r (if r.id == rid && r.closed == none then
        { r with closed := some time } else r) := by
  intro r
  by_cases hc : (r.id == rid && r.closed == none) = true
  · have h2 := hc
    rw [Bool.and_eq_true] at h2
    have hid : r.id = rid := by simpa using h2.1
    have hcl : r.closed = none := by simpa using h2.2
    simp [hid, hcl, reqOk]
  · simp [hc, reqOk]

theorem projOk_close (pid time : Nat) :
    ∀ p : Project,
      (if p.id == pid && p.closed == none then
        { p with closed := some time } else p).id = p.id ∧
      projOk p (if p.id == pid && p.closed == none then
        { p with closed := some time } else p) := by
  intro p
  by_cases hc : (p.id == pid && p.closed == none) = true
  · have h2 := hc
    rw [Bool.and_eq_true] at h2
    have hid : p.id = pid := by simpa using h2.1
    have hcl : p.closed = none := by simpa using h2.2
    simp [hid, hcl, projOk]
  · simp [hc, projOk]

theorem applyOp_stepTrace {db db' : DB} {op : Op}
    (h : applyOp db op = some db') : StepTrace db db' := by
  cases op <;> simp only [applyOp] at h
  case insertUser =>
    cases h
    refine ⟨Nat.le_succ _, ?_, ?_, ?_, ?_, ?_, ?_, ?_, ?_, ?_⟩ <;>
      first
        | exact traceOK_self _ _ _ _ reqOk_refl
        | exact traceOK_self _ _ _ _ projOk_refl
        | exact traceOK_self _ _ _ _ (fun _ => rfl)
  case insertClub =>
    cases h
    refine ⟨Nat.le_succ _, ?_, ?_, ?_, ?_, ?_, ?_, ?_, ?_, ?_⟩ <;>
      first
        | exact traceOK_self _ _ _ _ reqOk_refl
        | exact traceOK_self _ _ _ _ projOk_refl
        | exact traceOK_self _ _ _ _ (fun _ => rfl)
  case insertRequest =>
    split at h
    · cases h
      refine ⟨Nat.le_succ _, ?_, ?_, ?_, ?_, ?_, ?_, ?_, ?_, ?_⟩ <;>
        first
          | exact traceOK_append _ _ _ _ _ (Nat.le_refl _) reqOk_refl
          | exact traceOK_self _ _ _ _ projOk_refl
          | exact traceOK_self _ _ _ _ (fun _ => rfl)
    · exact Option.noConfusion h
  case insertClubRole =>
    split at h
    · cases h
      refine ⟨Nat.le_succ _, ?_, ?_, ?_, ?_, ?_, ?_, ?_, ?_, ?_⟩ <;>
        first
          | exact traceOK_self _ _ _ _ reqOk_refl
          | exact traceOK_self _ _ _ _ projOk_refl
          | exact traceOK_self _ _ _ _ (fun _ => rfl)
    · exact Option.noConfusion h
  case insertClubMembership =>
    split at h
    · cases h
      refine ⟨Nat.le_succ _, ?_, ?_, ?_, ?_, ?_, ?_, ?_, ?_, ?_⟩ <;>
        first
          | exact traceOK_self _ _ _ _ reqOk_refl
          | exact traceOK_self _ _ _ _ projOk_refl
          | exact traceOK_append _ _ _ _ _ (Nat.le_refl _) (fun _ => rfl)
          | exact traceOK_self _ _ _ _ (fun _ => rfl)
    · exact Option.noConfusion h
  case insertProject =>
    split at h
    · cases h
      refine ⟨Nat.le_succ _, ?_, ?_, ?_, ?_, ?_, ?_, ?_, ?_, ?_⟩ <;>
        first
          | exact traceOK_self _ _ _ _ reqOk_refl
          | exact traceOK_append _ _ _ _ _ (Nat.le_refl _) projOk_refl
          | exact traceOK_self _ _ _ _ (fun _ => rfl)
    · exact Option.noConfusion h
  case insertClubProject =>
    split at h
    · cases h
      refine ⟨Nat.le_succ _, ?_, ?_, ?_, ?_, ?_, ?_, ?_, ?_, ?_⟩ <;>
        first
          | exact traceOK_self _ _ _ _ reqOk_refl
          | exact traceOK_self _ _ _ _ projOk_refl
          | exact traceOK_self _ _ _ _ (fun _ => rfl)
    · exact Option.noConfusion h
  case insertProjectMembership =>
    split at h
    · cases h
      refine ⟨Nat.le_succ _, ?_, ?_, ?_, ?_, ?_, ?_, ?_, ?_, ?_⟩ <;>
        first
          | exact traceOK_self _ _ _ _ reqOk_refl
          | exact traceOK_self _ _ _ _ projOk_refl
          | exact traceOK_append _ _ _ _ _ (Nat.le_refl _) (fun _ => rfl)
          | exact traceOK_self _ _ _ _ (fun _ => rfl)
    · exact Option.noConfusion h
  case insertChannel =>
    split at h
    · cases h
      refine ⟨Nat.le_succ _, ?_, ?_, ?_, ?_, ?_, ?_, ?_, ?_, ?_⟩ <;>
        first
          | exact traceOK_self _ _ _ _ reqOk_refl
          | exact traceOK_self _ _ _ _ projOk_refl
          | exact traceOK_self _ _ _ _ (fun _ => rfl)
    · exact Option.noConfusion h
  case insertChannelSubscription =>
    split at h
    · cases h
      refine ⟨Nat.le_succ _, ?_, ?_, ?_, ?_, ?_, ?_, ?_, ?_, ?_⟩ <;>
        first
          | exact traceOK_self _ _ _ _ reqOk_refl
          | exact traceOK_self _ _ _ _ projOk_refl
          | exact traceOK_append _ _ _ _ _ (Nat.le_refl _) (fun _ => rfl)
          | exact traceOK_self _ _ _ _ (fun _ => rfl)
    · exact Option.noConfusion h
  case insertPost =>
    split at h
    · cases h
      refine ⟨Nat.le_succ _, ?_, ?_, ?_, ?_, ?_, ?_, ?_, ?_, ?_⟩ <;>
        first
          | exact traceOK_self _ _ _ _ reqOk_refl
          | exact traceOK_self _ _ _ _ projOk_refl
          | exact traceOK_append _ _ _ _ _ (Nat.le_refl _) (fun _ => rfl)
          | exact traceOK_self _ _ _ _ (fun _ => rfl)
    · exact Option.noConfusion h
  case insertConversation =>
    split at h
    · cases h
      refine ⟨Nat.le_succ _, ?_, ?_, ?_, ?_, ?_, ?_, ?_, ?_, ?_⟩ <;>
        first
          | exact traceOK_self _ _ _ _ reqOk_refl
          | exact traceOK_self _ _ _ _ projOk_refl
          | exact traceOK_append _ _ _ _ _ (Nat.le_refl _) (fun _ => rfl)
          | exact traceOK_self _ _ _ _ (fun _ => rfl)
    · exact Option.noConfusion h
  case insertFeedback =>
    split at h
    · cases h
      refine ⟨Nat.le_succ _, ?_, ?_, ?_, ?_, ?_, ?_, ?_, ?_, ?_⟩ <;>
        first
          | exact traceOK_self _ _ _ _ reqOk_refl
          | exact traceOK_self _ _ _ _ projOk_refl
          | exact traceOK_append _ _ _ _ _ (Nat.le_refl _) (fun _ => rfl)
          | exact traceOK_self _ _ _ _ (fun _ => rfl)
    · exact Option.noConfusion h
  case insertFeedbackReply =>
    split at h
    · cases h
      refine ⟨Nat.le_succ _, ?_, ?_, ?_, ?_, ?_, ?_, ?_, ?_, ?_⟩ <;>
        first
          | exact traceOK_self _ _ _ _ reqOk_refl
          | exact traceOK_self _ _ _ _ projOk_refl
          | exact traceOK_append _ _ _ _ _ (Nat.le_refl _) (fun _ => rfl)
          | exact traceOK_self _ _ _ _ (fun _ => rfl)
    · exact Option.noConfusion h
  case updateRequestStatus rid st =>
    split at h
    · cases h
      refine ⟨Nat.le_refl _, ?_, ?_, ?_, ?_, ?_, ?_, ?_, ?_, ?_⟩ <;>
        first
          | exact traceOK_map _ _ _ _ _ (reqOk_update rid st)
          | exact traceOK_self _ _ _ _ projOk_refl
          | exact traceOK_self _ _ _ _ (fun _ => rfl)
    · exact Option.noConfusion h
  case closeRequest rid time =>
    split at h
    · cases h
      refine ⟨Nat.le_refl _, ?_, ?_, ?_, ?_, ?_, ?_, ?_, ?_, ?_⟩ <;>
        first
          | exact traceOK_map _ _ _ _ _ (reqOk_close rid time)
          | exact traceOK_self _ _ _ _ projOk_refl
          | exact traceOK_self _ _ _ _ (fun _ => rfl)
    · exact Option.noConfusion h
  case closeProject pid time =>
    split at h
    · cases h
      refine ⟨Nat.le_refl _, ?_, ?_, ?_, ?_, ?_, ?_, ?_, ?_, ?_⟩ <;>
        first
          | exact traceOK_self _ _ _ _ reqOk_refl
          | exact traceOK_map _ _ _ _ _ (projOk_close pid time)
          | exact traceOK_self _ _ _ _ (fun _ => rfl)
    · exact Option.noConfusion h
  case delUser =>
    simp only [deleteUser] at h
    split at h
    · exact Option.noConfusion h
    · cases h
      refine ⟨Nat.le_refl _, ?_, ?_, ?_, ?_, ?_, ?_, ?_, ?_, ?_⟩ <;>
        first
          | exact traceOK_filter _ _ _ _ _ reqOk_refl
          | exact traceOK_self _ _ _ _ projOk_refl
          | exact traceOK_filter _ _ _ _ _ (fun _ => rfl)
          | exact traceOK_self _ _ _ _ (fun _ => rfl)
  case delClub =>
    cases h
    refine ⟨Nat.le_refl _, ?_, ?_, ?_, ?_, ?_, ?_, ?_, ?_, ?_⟩ <;>
      first
        | exact traceOK_filter _ _ _ _ _ reqOk_refl
        | exact traceOK_self _ _ _ _ projOk_refl
        | exact traceOK_filter _ _ _ _ _ (fun _ => rfl)
        | exact traceOK_self _ _ _ _ (fun _ => rfl)
  case delConversation =>
    cases h
    refine ⟨Nat.le_refl _, ?_, ?_, ?_, ?_, ?_, ?_, ?_, ?_, ?_⟩ <;>
      first
        | exact traceOK_self _ _ _ _ reqOk_refl
        | exact traceOK_self _ _ _ _ projOk_refl
        | exact traceOK_filter _ _ _ _ _ (fun _ => rfl)
        | exact traceOK_self _ _ _ _ (fun _ => rfl)
  case delProject =>
    cases h
    refine ⟨Nat.le_refl _, ?_, ?_, ?_, ?_, ?_, ?_, ?_, ?_, ?_⟩ <;>
      first
        | exact traceOK_self _ _ _ _ reqOk_refl
        | exact traceOK_filter _ _ _ _ _ projOk_refl
        | exact traceOK_filter _ _ _ _ _ (fun _ => rfl)
        | exact traceOK_self _ _ _ _ (fun _ => rfl)

theorem steps_stepTrace {db db' : DB} (h : Steps db db') :
    StepTrace db db' := by
  induction h with
  | refl => exact stepTrace_refl _
  | tail op _ hstep ih => exact stepTrace_trans ih (applyOp_stepTrace hstep)

/-- C7: along every sequence of operations from a well-formed state, the
creation timestamps (`initiated`, `joined`, `started`, `created`) of a row
never change while the row exists, and the `closed` field of a
ClubMembershipRequest or Project starts as null at creation and, once
non-null, never changes and never returns to null (so it changes at most
once, from null to a value). -/
theorem timestamps_set_once :
    (∀ db db' : DB, WF db → Steps db db' →
      (∀ r ∈ db.requests, ∀ r' ∈ db'.requests, r'.id = r.id →
        r'.initiated = r.initiated ∧
        ∀ v, r.closed = some v → r'.closed = some v) ∧
      (∀ p ∈ db.projects, ∀ p' ∈ db'.projects, p'.id = p.id →
        p'.started = p.started ∧
        ∀ v, p.closed = some v → p'.closed = some v) ∧
      (∀ m ∈ db.memberships, ∀ m' ∈ db'.memberships, m'.id = m.id →
        m'.joined = m.joined) ∧
      (∀ m ∈ db.projectMemberships, ∀ m' ∈ db'.projectMemberships,
        m'.id = m.id → m'.joined = m.joined) ∧
      (∀ s ∈ db.subscriptions, ∀ s' ∈ db'.subscriptions, s'.id = s.id →
        s'.joined = s.joined) ∧
      (∀ p ∈ db.posts, ∀ p' ∈ db'.posts, p'.id = p.id →
        p'.created = p.created) ∧
      (∀ c ∈ db.conversations, ∀ c' ∈ db'.conversations, c'.id = c.id →
        c'.created = c.created) ∧
      (∀ f ∈ db.feedbacks, ∀ f' ∈ db'.feedbacks, f'.id = f.id →
        f'.created = f.created) ∧
      (∀ r ∈ db.replies, ∀ r' ∈ db'.replies, r'.id = r.id →
        r'.created = r.created)) ∧
    (∀ (db db' : DB) (user club time : Nat) (st : Option String),
      applyOp db (Op.insertRequest user club time st) = some db' →
      ∀ r ∈ db'.requests, r ∉ db.requests → r.closed = none) ∧
    (∀ (db db' : DB) (name description : String) (time leader : Nat),
      applyOp db (Op.insertProject name description time leader) = some db' →
      ∀ p ∈ db'.projects, p ∉ db.projects → p.closed = none) := by
  refine ⟨?_, ?_, ?_⟩
  · intro db db' hwf hsteps
    have ht := steps_stepTrace hsteps
    obtain ⟨hq, hp, hm, hpm, hs, hpo, hc, hf, hr⟩ := hwf
    refine ⟨?_, ?_, ?_, ?_, ?_, ?_, ?_, ?_, ?_⟩
    · intro r hrm r' hrm' hid
      have hok := traceOK_extract _ _ ht.2.1 hq.1 hq.2 r hrm r' hrm' hid
      refine ⟨hok.1, ?_⟩
      intro v hv
      rcases hok.2 with hn | he
      · exact absurd (hv ▸ hn) (by simp)
      · exact he.trans hv
    · intro p hpm' p' hpm'' hid
      have hok := traceOK_extract _ _ ht.2.2.1 hp.1 hp.2 p hpm' p' hpm'' hid
      refine ⟨hok.1, ?_⟩
      intro v hv
      rcases hok.2 with hn | he
      · exact absurd (hv ▸ hn) (by simp)
      · exact he.trans hv
    · exact traceOK_extract _ _ ht.2.2.2.1 hm.1 hm.2
    · exact traceOK_extract _ _ ht.2.2.2.2.1 hpm.1 hpm.2
    · exact traceOK_extract _ _ ht.2.2.2.2.2.1 hs.1 hs.2
    · exact traceOK_extract _ _ ht.2.2.2.2.2.2.1 hpo.1 hpo.2
    · exact traceOK_extract _ _ ht.2.2.2.2.2.2.2.1 hc.1 hc.2
    · exact traceOK_extract _ _ ht.2.2.2.2.2.2.2.2.1 hf.1 hf.2
    · exact traceOK_extract _ _ ht.2.2.2.2.2.2.2.2.2 hr.1 hr.2
  · intro db db' user club time st h r hrm hnew
    simp only [applyOp] at h
    split at h
    · cases h
      rcases List.mem_append.mp hrm with hold | hsingle
      · exact absurd hold hnew
      · rcases List.mem_singleton.mp hsingle with rfl
        rfl
    · exact Option.noConfusion h
  · intro db db' name description time leader h p hpm hnew
    simp only [applyOp] at h
    split at h
    · cases h
      rcases List.mem_append.mp hpm with hold | hsingle
      · exact absurd hold hnew
      · rcases List.mem_singleton.mp hsingle with rfl
        rfl
    · exact Option.noConfusion h

theorem timestamps_set_once_witness :
    applyOp dbOpen (Op.closeRequest 0 7) = some dbOpenClosed ∧
    (⟨0, 1, 2, 5, "PD", some 7⟩ : ClubMembershipRequest).initiated =
      (⟨0, 1, 2, 5, "PD", none⟩ : ClubMembershipRequest).initiated :=
  ⟨by decide,
    ((timestamps_set_once.1 dbOpen dbOpenClosed
        ⟨⟨by decide, by decide⟩, ⟨by decide, by decide⟩,
          ⟨by decide, by decide⟩, ⟨by decide, by decide⟩,
          ⟨by decide, by decide⟩, ⟨by decide, by decide⟩,
          ⟨by decide, by decide⟩, ⟨by decide, by decide⟩,
          ⟨by decide, by decide⟩⟩
        (Steps.tail (Op.closeRequest 0 7) (Steps.refl dbOpen)
          (by decide))).1
      ⟨0, 1, 2, 5, "PD", none⟩ (by decide) ⟨0, 1, 2, 5, "PD", some 7⟩
      (by decide) rfl).1⟩

/-- C8 fails as stated: `status` is a non-nullable field of
ClubMembershipRequest (it is not declared nullable), yet an insertion that
omits it succeeds, because the schema declares the default "PD". -/
theorem required_fields_counterexample :
    rawInsertRequest dbReq (some 1) (some 2) 0 none = some dbReqAfter := by
  decide

/-- C8 (amended): for every entity type and every non-nullable field with
neither a declared default nor an automatically set creation value — name,
description, content, and the required foreign keys user, club, club_role,
leader, project, channel, author, parent — an insertion that omits a value
for that field fails: it returns `none` and produces no state, leaving the
database unchanged.  (Fields with a declared default, such as `status` and
`privilege`, and auto-set timestamps are filled in when omitted.) -/
theorem required_fields_reject_missing :
    (∀ (db : DB) (d : Option String),
      rawInsertClub db none d = none) ∧
    (∀ (db : DB) (n : Option String),
      rawInsertClub db n none = none) ∧
    (∀ (db : DB) (c : Option Nat) (t : Nat) (st : Option String),
      rawInsertRequest db none c t st = none) ∧
    (∀ (db : DB) (u : Option Nat) (t : Nat) (st : Option String),
      rawInsertRequest db u none t st = none) ∧
    (∀ (db : DB) (d : Option String) (c : Option Nat) (p : Option String),
      rawInsertClubRole db none d c p = none) ∧
    (∀ (db : DB) (n : Option String) (c : Option Nat) (p : Option String),
      rawInsertClubRole db n none c p = none) ∧
    (∀ (db : DB) (n d : Option String) (p : Option String),
      rawInsertClubRole db n d none p = none) ∧
    (∀ (db : DB) (c : Option Nat) (t : Nat),
      rawInsertClubMembership db none c t = none) ∧
    (∀ (db : DB) (u : Option Nat) (t : Nat),
      rawInsertClubMembership db u none t = none) ∧
    (∀ (db : DB) (d : Option String) (t : Nat) (l : Option Nat),
      rawInsertProject db none d t l = none) ∧
    (∀ (db : DB) (n : Option String) (t : Nat) (l : Option Nat),
      rawInsertProject db n none t l = none) ∧
    (∀ (db : DB) (n d : Option String) (t : Nat),
      rawInsertProject db n d t none = none) ∧
    (∀ (db : DB) (p : Option Nat),
      rawInsertClubProject db none p = none) ∧
    (∀ (db : DB) (c : Option Nat),
      rawInsertClubProject db c none = none) ∧
    (∀ (db : DB) (p : Option Nat) (t : Nat),
      rawInsertProjectMembership db none p t = none) ∧
    (∀ (db : DB) (u : Option Nat) (t : Nat),
      rawInsertProjectMembership db u none t = none) ∧
    (∀ (db : DB) (d : Option String) (c : Option Nat),
      rawInsertChannel db none d c = none) ∧
    (∀ (db : DB) (n : Option String) (c : Option Nat),
      rawInsertChannel db n none c = none) ∧
    (∀ (db : DB) (n d : Option String),
      rawInsertChannel db n d none = none) ∧
    (∀ (db : DB) (c : Option Nat) (t : Nat),
      rawInsertChannelSubscription db none c t = none) ∧
    (∀ (db : DB) (u : Option Nat) (t : Nat),
      rawInsertChannelSubscription db u none t = none) ∧
    (∀ (db : DB) (t : Nat) (c : Option Nat),
      rawInsertPost db none t c = none) ∧
    (∀ (db : DB) (co : Option String) (t : Nat),
      rawInsertPost db co t none = none) ∧
    (∀ (db : DB) (t : Nat) (ch au : Option Nat) (pa : Option Nat),
      rawInsertConversation db none t ch au pa = none) ∧
    (∀ (db : DB) (co : Option String) (t : Nat) (au : Option Nat)
      (pa : Option Nat),
      rawInsertConversation db co t none au pa = none) ∧
    (∀ (db : DB) (co : Option String) (t : Nat) (ch : Option Nat)
      (pa : Option Nat),
      rawInsertConversation db co t ch none pa = none) ∧
    (∀ (db : DB) (t : Nat) (cl au : Option Nat),
      rawInsertFeedback db none t cl au = none) ∧
    (∀ (db : DB) (co : Option String) (t : Nat) (au : Option Nat),
      rawInsertFeedback db co t none au = none) ∧
    (∀ (db : DB) (co : Option String) (t : Nat) (cl : Option Nat),
      rawInsertFeedback db co t cl none = none) ∧
    (∀ (db : DB) (t : Nat) (p : Option Nat),
      rawInsertFeedbackReply db none t p = none) ∧
    (∀ (db : DB) (co : Option String) (t : Nat),
      rawInsertFeedbackReply db co t none = none) :=
  ⟨fun _ d => by cases d <;> rfl,
    fun _ n => by cases n <;> rfl,
    fun _ c _ _ => by cases c <;> rfl,
    fun _ u _ _ => by cases u <;> rfl,
    fun _ d c _ => by cases d <;> cases c <;> rfl,
    fun _ n c _ => by cases n <;> cases c <;> rfl,
    fun _ n d _ => by cases n <;> cases d <;> rfl,
    fun _ c _ => by cases c <;> rfl,
    fun _ u _ => by cases u <;> rfl,
    fun _ d _ l => by cases d <;> cases l <;> rfl,
    fun _ n _ l => by cases n <;> cases l <;> rfl,
    fun _ n d _ => by cases n <;> cases d <;> rfl,
    fun _ p => by cases p <;> rfl,
    fun _ c => by cases c <;> rfl,
    fun _ p _ => by cases p <;> rfl,
    fun _ u _ => by cases u <;> rfl,
    fun _ d c => by cases d <;> cases c <;> rfl,
    fun _ n c => by cases n <;> cases c <;> rfl,
    fun _ n d => by cases n <;> cases d <;> rfl,
    fun _ c _ => by cases c <;> rfl,
    fun _ u _ => by cases u <;> rfl,
    fun _ _ c => by cases c <;> rfl,
    fun _ co _ => by cases co <;> rfl,
    fun _ _ ch au _ => by cases ch <;> cases au <;> rfl,
    fun _ co _ au _ => by cases co <;> cases au <;> rfl,
    fun _ co _ ch _ => by cases co <;> cases ch <;> rfl,
    fun _ _ cl au => by cases cl <;> cases au <;> rfl,
    fun _ co _ au => by cases co <;> cases au <;> rfl,
    fun _ co _ cl => by cases co <;> cases cl <;> rfl,
    fun _ _ p => by cases p <;> rfl,
    fun _ co _ => by cases co <;> rfl⟩

end Clubnet
